import Mathlib

/-!
Shallow embedding of `scripts/experimental/lonestarbmk2/bmktest2.py`:
benchmark run-specification construction for the LonestarGPU/Galois
shared-memory benchmark suite.  The Python module builds `bmk2.RunSpec`
objects (binary path, argument tokens, checker and perf policies) for each
benchmark binary; we model the argument accumulation explicitly and the
harness objects (`RunSpec`, `AT_INPUT_FILE`, `PassChecker`, `ZeroPerf`) as
plain data, following the external-interface description of the spec.
-/

/-- Binding mode of one argument token.  `atInputFile` models passing
`bmk2.AT_INPUT_FILE` to `set_arg`; `plain` is the default binding. -/
inductive ArgBinding where
  | plain
  | atInputFile
deriving DecidableEq, Repr

/-- One argument token together with its binding mode. -/
structure Arg where
  token : String
  binding : ArgBinding
deriving DecidableEq, Repr

/-- Checker policy set on a run spec (`bmk2.PassChecker()`). -/
inductive Checker where
  | passChecker
deriving DecidableEq, Repr

/-- Perf policy set on a run spec (`bmk2.ZeroPerf()`). -/
inductive Perf where
  | zeroPerf
deriving DecidableEq, Repr

/-- Model of a `bmk2.RunSpec` after the builder finished mutating it:
binary prefix and path from `set_binary`, the `set_arg` tokens in call
order, and the checker/perf policies. -/
structure RunSpec where
  binPre : String
  binPath : String
  args : List Arg
  checker : Option Checker
  perf : Option Perf
deriving DecidableEq, Repr

/-- The `.props` record of an input item: format tag and file path. -/
structure InputProps where
  format : String
  file : String
deriving DecidableEq, Repr

/-- One benchmark input item (`bmkinput`): a name plus properties. -/
structure BmkInput where
  name : String
  props : InputProps
deriving DecidableEq, Repr

/-- The configuration object; `get_var` is looked up by name with keys
`"pathToApps"` and `"logOutputDirectory"`. -/
structure Config where
  pathToApps : String
  logOutputDirectory : String
deriving DecidableEq, Repr

/-- `config.get_var(name)` string lookup. -/
def Config.get_var (c : Config) (v : String) : String :=
  if v = "pathToApps" then c.pathToApps
  else if v = "logOutputDirectory" then c.logOutputDirectory
  else ""

/-- Static data of one `SharedMemApp` subclass: the class attributes
`relativeAppPath`, `benchmark` and the thread sweep attributes
`startThread`/`endThread`/`step` (defaulted to 80/80/10 as in the base
class `SharedMemApp`, never overridden by any subclass). -/
structure AppClass where
  relativeAppPath : String
  benchmark : String
  startThread : Int := 80
  endThread : Int := 80
  step : Int := 10
deriving DecidableEq, Repr

/-- The decimal digit character for `d < 10` (`'0'` + d). -/
def digitChar (d : Nat) : Char := Char.ofNat (48 + d)

/-- Fuel-driven decimal rendering of a natural number, most significant
digit first; mirrors the digit loop behind Python's `"%d"` formatting.
Any `fuel > n` is enough fuel. -/
def natReprCore : Nat → Nat → List Char
  | 0, _ => []
  | fuel + 1, n =>
    if n < 10 then [digitChar n]
    else natReprCore fuel (n / 10) ++ [digitChar (n % 10)]

/-- Decimal rendering of a natural number. -/
def natRepr (n : Nat) : String := String.mk (natReprCore (n + 1) n)

/-- Decimal rendering of an integer, as Python's `"%d" % i` renders it. -/
def intRepr (i : Int) : String :=
  if i < 0 then "-" ++ natRepr (-i).toNat else natRepr i.toNat

/-- `os.path.join(a, b)` for two POSIX path components: an absolute `b`
replaces `a`; otherwise a single separator is inserted unless `a` is empty
or already ends with one. -/
def path_join (a b : String) : String :=
  if b.data.head? = some '/' then b
  else if a = "" then b
  else if a.data.getLast? = some '/' then a ++ b
  else a ++ "/" ++ b

/-- Modelled from the spec: `getUniqueStatFile` is inherited from
`GraphBMKSharedMem` in `bmkprops.py`, which is not part of the provided
source tree.  Per the spec it deterministically combines algorithm
identity, thread count and input display name into a unique stat-file
name. -/
def getUniqueStatFile (app : AppClass) (numThreads : Int) (nameToAppend : String) : String :=
  app.benchmark ++ "_" ++ intRepr numThreads ++ "_" ++ nameToAppend

/-- The predicate `finput` inside `SharedMemApp.filter_inputs`. -/
def finput (x : BmkInput) : Bool :=
  if x.props.format = "bin/galois" then true
  else if x.props.format = "mesh" then true
  else if x.props.format = "nothing" then true
  else false

/-- `SharedMemApp.filter_inputs`: keep only the supported input formats. -/
def filter_inputs (inputs : List BmkInput) : List BmkInput :=
  inputs.filter finput

/-- Python `range(start, stop, step)` as a list of integers (empty when
`step = 0`, where Python instead raises; the module only ever uses
`step = 10`). -/
def pythonRange (start stop step : Int) : List Int :=
  if 0 < step then
    if start < stop then
      (List.range (((stop - start - 1) / step).toNat + 1)).map
        (fun i : Nat => start + (i : Int) * step)
    else []
  else if step < 0 then
    if stop < start then
      (List.range (((start - stop - 1) / (-step)).toNat + 1)).map
        (fun i : Nat => start + (i : Int) * step)
    else []
  else []

/-- The body-of-loop adjustment of `numThreads`: `0` becomes `1` when
`step != 1`, and is skipped (`continue`) when `step == 1`. -/
def adjustThreads (step numThreads : Int) : Option Int :=
  if numThreads = 0 ∧ step ≠ 1 then some 1
  else if numThreads = 0 then none
  else some numThreads

/-- The sequence of thread counts actually used by
`get_default_run_specs`: `range(startThread, endThread + 1, step)` with
the zero adjustment applied. -/
def threadCounts (startThread endThread step : Int) : List Int :=
  (pythonRange startThread (endThread + 1) step).filterMap (adjustThreads step)

/-- One iteration of the loop body of `get_default_run_specs`: the run
spec built for a single thread count. -/
def mkRunSpec (app : AppClass) (bmkinput : BmkInput) (config : Config) (numThreads : Int) :
    RunSpec :=
  let nameToAppend := if bmkinput.props.format = "nothing" then "gen" else bmkinput.name
  let fileArgs : List Arg :=
    if bmkinput.props.format = "nothing" then []
    else if bmkinput.props.format ≠ "mesh" then [⟨bmkinput.props.file, ArgBinding.atInputFile⟩]
    else [⟨bmkinput.props.file, ArgBinding.plain⟩]
  { binPre := ""
    binPath := path_join (config.get_var "pathToApps") app.relativeAppPath
    args := ⟨"-t=" ++ intRepr numThreads, ArgBinding.plain⟩ :: fileArgs ++
      [⟨"-statFile=" ++ path_join (config.get_var "logOutputDirectory")
          (getUniqueStatFile app numThreads nameToAppend), ArgBinding.plain⟩]
    checker := some Checker.passChecker
    perf := some Perf.zeroPerf }

/-- The list built by the loop of `get_default_run_specs` once the
configuration is known to be present. -/
def build_default_specs (app : AppClass) (bmkinput : BmkInput) (config : Config) :
    List RunSpec :=
  (threadCounts app.startThread app.endThread app.step).map (mkRunSpec app bmkinput config)

/-- `SharedMemApp.get_default_run_specs`: asserts the configuration is
present (an absent config raises `AssertionError`), then builds one run
spec per thread count. -/
def get_default_run_specs (app : AppClass) (bmkinput : BmkInput) (config : Option Config) :
    Except String (List RunSpec) :=
  match config with
  | none => Except.error "AssertionError: config != None failed"
  | some c => Except.ok (build_default_specs app bmkinput c)

/-- `x.set_arg(tok)` with the default binding: append one plain token. -/
def set_arg_plain (s : RunSpec) (tok : String) : RunSpec :=
  { s with args := s.args ++ [⟨tok, ArgBinding.plain⟩] }

/-- Append a list of plain tokens to a run spec, in order. -/
def appendArgs (toks : List String) (s : RunSpec) : RunSpec :=
  toks.foldl set_arg_plain s

/-- `SharedMemApp.get_run_spec`: the base class delegates to
`get_default_run_specs` unchanged. -/
def SharedMemApp.get_run_spec (app : AppClass) (bmkinput : BmkInput) (config : Option Config) :
    Except String (List RunSpec) :=
  get_default_run_specs app bmkinput config

/-- Class attributes of `BarnesHut`. -/
def BarnesHut.app : AppClass :=
  { relativeAppPath := "barneshut/barneshut", benchmark := "barneshut" }

/-- `BarnesHut.get_run_spec`: adds the Barnes-Hut specific arguments. -/
def BarnesHut.get_run_spec (bmkinput : BmkInput) (config : Option Config) :
    Except String (List RunSpec) :=
  (get_default_run_specs BarnesHut.app bmkinput config).map
    (fun specs => specs.map (appendArgs ["-n=50000", "-steps=1", "-seed=0"]))

/-- Class attributes of `BCOuter`. -/
def BCOuter.app : AppClass :=
  { relativeAppPath := "betweennesscentrality/betweennesscentrality-outer"
    benchmark := "bc-outer" }

/-- `BCOuter` inherits `get_run_spec` from `SharedMemApp`. -/
def BCOuter.get_run_spec (bmkinput : BmkInput) (config : Option Config) :
    Except String (List RunSpec) :=
  SharedMemApp.get_run_spec BCOuter.app bmkinput config

/-- Class attributes of `BCInner`. -/
def BCInner.app : AppClass :=
  { relativeAppPath := "betweennesscentrality/betweennesscentrality-inner"
    benchmark := "bc-inner" }

/-- `BCInner` inherits `get_run_spec` from `SharedMemApp`. -/
def BCInner.get_run_spec (bmkinput : BmkInput) (config : Option Config) :
    Except String (List RunSpec) :=
  SharedMemApp.get_run_spec BCInner.app bmkinput config

/-- Class attributes of `BFS`. -/
def BFS.app : AppClass :=
  { relativeAppPath := "bfs/bfs", benchmark := "bfs" }

/-- `BFS` inherits `get_run_spec` from `SharedMemApp`. -/
def BFS.get_run_spec (bmkinput : BmkInput) (config : Option Config) :
    Except String (List RunSpec) :=
  SharedMemApp.get_run_spec BFS.app bmkinput config

/-- Class attributes of `DMR`. -/
def DMR.app : AppClass :=
  { relativeAppPath := "delaunayrefinement/delaunayrefinement", benchmark := "dmr" }

/-- `DMR` inherits `get_run_spec` from `SharedMemApp`. -/
def DMR.get_run_spec (bmkinput : BmkInput) (config : Option Config) :
    Except String (List RunSpec) :=
  SharedMemApp.get_run_spec DMR.app bmkinput config

/-- Class attributes of `GMetis`. -/
def GMetis.app : AppClass :=
  { relativeAppPath := "gmetis/gmetis", benchmark := "gmetis" }

/-- `GMetis.get_run_spec`: adds the number-of-partitions argument. -/
def GMetis.get_run_spec (bmkinput : BmkInput) (config : Option Config) :
    Except String (List RunSpec) :=
  (get_default_run_specs GMetis.app bmkinput config).map
    (fun specs => specs.map (appendArgs ["256"]))

/-- Class attributes of `IndependentSet`. -/
def IndependentSet.app : AppClass :=
  { relativeAppPath := "independentset/independentset", benchmark := "independentset" }

/-- `IndependentSet` inherits `get_run_spec` from `SharedMemApp`. -/
def IndependentSet.get_run_spec (bmkinput : BmkInput) (config : Option Config) :
    Except String (List RunSpec) :=
  SharedMemApp.get_run_spec IndependentSet.app bmkinput config

/-- Class attributes of `MCM`. -/
def MCM.app : AppClass :=
  { relativeAppPath := "matching/bipartite-mcm", benchmark := "mcm" }

/-- `MCM.get_run_spec`: adds the bipartite-matching specific arguments. -/
def MCM.get_run_spec (bmkinput : BmkInput) (config : Option Config) :
    Except String (List RunSpec) :=
  (get_default_run_specs MCM.app bmkinput config).map
    (fun specs => specs.map (appendArgs
      ["-inputType=generated", "-n=1000000", "-numEdges=100000000", "-numGroups=10000",
       "-seed=0"]))

/-- Class attributes of `SSSP`. -/
def SSSP.app : AppClass :=
  { relativeAppPath := "sssp/sssp", benchmark := "sssp" }

/-- `SSSP.get_run_spec`: adds the delta argument. -/
def SSSP.get_run_spec (bmkinput : BmkInput) (config : Option Config) :
    Except String (List RunSpec) :=
  (get_default_run_specs SSSP.app bmkinput config).map
    (fun specs => specs.map (appendArgs ["-delta=8"]))

/-- The registry of benchmark descriptors exposed to the harness:
`BINARIES = [MCM()]`. -/
def BINARIES : List AppClass := [MCM.app]

/-- The descriptor classes defined in the module, in source order (nine
descriptors covering eight algorithms; betweenness centrality has an
outer and an inner variant). -/
def definedDescriptors : List AppClass :=
  [BarnesHut.app, BCOuter.app, BCInner.app, BFS.app, DMR.app, GMetis.app,
   IndependentSet.app, MCM.app, SSSP.app]

/-- Written from the spec's words (for refinement against the code): the
thread-count values of the closed range `[s, e]` in steps of `step`. -/
def closedRangeSweep (s e step : Int) : List Int :=
  if 0 < step ∧ s ≤ e then
    (List.range (((e - s) / step).toNat + 1)).map (fun i : Nat => s + (i : Int) * step)
  else []

/-- Written from the spec's words (for refinement against the code): a
computed thread-count value of 0 is replaced by 1 when `step ≠ 1` and
skipped entirely when `step = 1`; other values pass through. -/
def specZeroPolicy (step t : Int) : Option Int :=
  if t = 0 then (if step = 1 then none else some 1) else some t

/-- A sample graph-binary input item, used by witnesses. -/
def sampleGraphInput : BmkInput := ⟨"galaxy1", ⟨"bin/galois", "/data/galaxy1.gr"⟩⟩

/-- A sample generated/no-file input item, used by witnesses. -/
def sampleGenInput : BmkInput := ⟨"anyname", ⟨"nothing", ""⟩⟩

/-- A sample mesh input item, used by witnesses. -/
def sampleMeshInput : BmkInput := ⟨"mesh1", ⟨"mesh", "/data/mesh1"⟩⟩

/-- A sample input item with a format outside the accepted set, used by
witnesses. -/
def sampleOddInput : BmkInput := ⟨"odd", ⟨"not-a-format", "/data/odd.bin"⟩⟩

/-- A sample configuration, used by witnesses. -/
def sampleConfig : Config := ⟨"/opt/apps", "/logs"⟩

/-! ### Decimal rendering: injectivity -/

theorem digitChar_inj : ∀ d1 < 10, ∀ d2 < 10, digitChar d1 = digitChar d2 → d1 = d2 := by
  decide

theorem digitChar_ne_dash : ∀ d < 10, digitChar d ≠ '-' := by decide

theorem natReprCore_ne_nil (fuel n : Nat) (h : n < fuel) : natReprCore fuel n ≠ [] := by
  cases fuel with
  | zero => omega
  | succ f =>
    unfold natReprCore
    split
    · simp
    · simp

theorem natReprCore_head_digit (fuel n : Nat) (h : n < fuel) :
    ∃ d, d < 10 ∧ (natReprCore fuel n).head? = some (digitChar d) := by
  induction fuel generalizing n with
  | zero => omega
  | succ f ih =>
    unfold natReprCore
    split
    · exact ⟨n, by assumption, rfl⟩
    · rename_i h10
      obtain ⟨d, hd10, hhead⟩ := ih (n / 10) (by omega)
      refine ⟨d, hd10, ?_⟩
      rw [List.head?_append, hhead]
      rfl

theorem natReprCore_inj :
    ∀ f1 f2 n m, n < f1 → m < f2 → natReprCore f1 n = natReprCore f2 m → n = m := by
  intro f1
  induction f1 with
  | zero => intro f2 n m h; omega
  | succ f ih =>
    intro f2 n m hn hm heq
    cases f2 with
    | zero => omega
    | succ g =>
      unfold natReprCore at heq
      by_cases h1 : n < 10 <;> by_cases h2 : m < 10
      · rw [if_pos h1, if_pos h2] at heq
        simp only [List.cons.injEq, and_true] at heq
        exact digitChar_inj n h1 m h2 heq
      · exfalso
        rw [if_pos h1, if_neg h2] at heq
        have hlen := congrArg List.length heq
        simp only [List.length_singleton, List.length_append, List.length_cons,
          List.length_nil] at hlen
        have hne := List.length_pos.mpr (natReprCore_ne_nil g (m / 10) (by omega))
        omega
      · exfalso
        rw [if_neg h1, if_pos h2] at heq
        have hlen := congrArg List.length heq
        simp only [List.length_singleton, List.length_append, List.length_cons,
          List.length_nil] at hlen
        have hne := List.length_pos.mpr (natReprCore_ne_nil f (n / 10) (by omega))
        omega
      · rw [if_neg h1, if_neg h2] at heq
        obtain ⟨hpre, hsuf⟩ := List.append_inj' heq (by simp)
        have hmod : n % 10 = m % 10 := by
          simp only [List.cons.injEq, and_true] at hsuf
          exact digitChar_inj _ (Nat.mod_lt _ (by omega)) _ (Nat.mod_lt _ (by omega)) hsuf
        have hdiv : n / 10 = m / 10 := ih g (n / 10) (m / 10) (by omega) (by omega) hpre
        omega

theorem natRepr_inj (n m : Nat) (h : natRepr n = natRepr m) : n = m := by
  unfold natRepr at h
  have hd : natReprCore (n + 1) n = natReprCore (m + 1) m := congrArg String.data h
  exact natReprCore_inj (n + 1) (m + 1) n m (by omega) (by omega) hd

theorem natRepr_head_digit (n : Nat) :
    ∃ d, d < 10 ∧ (natRepr n).data.head? = some (digitChar d) :=
  natReprCore_head_digit (n + 1) n (by omega)

theorem string_append_cancel_left (a b c : String) (h : a ++ b = a ++ c) : b = c := by
  apply String.ext
  have hd := congrArg String.data h
  rw [String.data_append, String.data_append] at hd
  exact List.append_cancel_left hd

theorem string_append_cancel_right (a b c : String) (h : a ++ c = b ++ c) : a = b := by
  apply String.ext
  have hd := congrArg String.data h
  rw [String.data_append, String.data_append] at hd
  exact List.append_cancel_right hd

theorem intRepr_inj (i j : Int) (h : intRepr i = intRepr j) : i = j := by
  unfold intRepr at h
  by_cases hi : i < 0 <;> by_cases hj : j < 0
  · rw [if_pos hi, if_pos hj] at h
    have := natRepr_inj _ _ (string_append_cancel_left "-" _ _ h)
    omega
  · exfalso
    rw [if_pos hi, if_neg hj] at h
    obtain ⟨d, hd10, hdig⟩ := natRepr_head_digit j.toNat
    have hd := congrArg (fun s => s.data.head?) h
    simp only [String.data_append, List.head?_append] at hd
    have hdash : ("-" : String).data.head? = some '-' := rfl
    rw [hdash, hdig, Option.or_some] at hd
    exact digitChar_ne_dash d hd10 (Option.some.inj hd).symm
  · exfalso
    rw [if_neg hi, if_pos hj] at h
    obtain ⟨d, hd10, hdig⟩ := natRepr_head_digit i.toNat
    have hd := congrArg (fun s => s.data.head?) h
    simp only [String.data_append, List.head?_append] at hd
    have hdash : ("-" : String).data.head? = some '-' := rfl
    rw [hdash, hdig, Option.or_some] at hd
    exact digitChar_ne_dash d hd10 (Option.some.inj hd)
  · rw [if_neg hi, if_neg hj] at h
    have := natRepr_inj _ _ h
    omega

/-! ### Path joining and stat-file names: injectivity -/

theorem path_join_inj (a b1 b2 : String)
    (hhead : b1.data.head? = b2.data.head?)
    (h : path_join a b1 = path_join a b2) : b1 = b2 := by
  unfold path_join at h
  by_cases habs : b1.data.head? = some '/'
  · have habs2 : b2.data.head? = some '/' := by rw [← hhead]; exact habs
    rwa [if_pos habs, if_pos habs2] at h
  · have habs2 : ¬ b2.data.head? = some '/' := by rw [← hhead]; exact habs
    rw [if_neg habs, if_neg habs2] at h
    by_cases ha : a = ""
    · rwa [if_pos ha, if_pos ha] at h
    · rw [if_neg ha, if_neg ha] at h
      by_cases hsl : a.data.getLast? = some '/'
      · rw [if_pos hsl, if_pos hsl] at h
        exact string_append_cancel_left _ _ _ h
      · rw [if_neg hsl, if_neg hsl] at h
        exact string_append_cancel_left _ _ _ h

theorem getUniqueStatFile_inj (app : AppClass) (nm : String) (t1 t2 : Int)
    (h : getUniqueStatFile app t1 nm = getUniqueStatFile app t2 nm) : t1 = t2 := by
  unfold getUniqueStatFile at h
  have h1 := string_append_cancel_right _ _ _ h
  have h2 := string_append_cancel_right _ _ _ h1
  have h3 := string_append_cancel_left _ _ _ h2
  exact intRepr_inj _ _ h3

theorem getUniqueStatFile_head (app : AppClass) (nm : String) (t1 t2 : Int) :
    (getUniqueStatFile app t1 nm).data.head? = (getUniqueStatFile app t2 nm).data.head? := by
  unfold getUniqueStatFile
  have hu : ("_" : String).data.head? = some '_' := rfl
  simp only [String.data_append, List.append_assoc, List.head?_append, hu, Option.or_some,
    Option.or_assoc]

/-- The full `-statFile=` token is injective in the thread count, for a
fixed configuration, benchmark and display name. -/
theorem statFileToken_inj (app : AppClass) (c : Config) (nm : String) (t1 t2 : Int)
    (h : "-statFile=" ++ path_join (c.get_var "logOutputDirectory") (getUniqueStatFile app t1 nm)
        = "-statFile=" ++
            path_join (c.get_var "logOutputDirectory") (getUniqueStatFile app t2 nm)) :
    t1 = t2 := by
  have h1 := string_append_cancel_left _ _ _ h
  have h2 := path_join_inj _ _ _ (getUniqueStatFile_head app nm t1 t2) h1
  exact getUniqueStatFile_inj app nm t1 t2 h2

/-! ### The thread-count sweep -/

theorem pythonRange_closed (s e st : Int) (h : 0 < st) :
    pythonRange s (e + 1) st = closedRangeSweep s e st := by
  unfold pythonRange closedRangeSweep
  have h2 : e + 1 - s - 1 = e - s := by ring
  rw [if_pos h, h2]
  by_cases hse : s ≤ e
  · rw [if_pos (by omega : s < e + 1), if_pos ⟨h, hse⟩]
  · rw [if_neg (by omega : ¬ s < e + 1), if_neg (by tauto)]

theorem adjustThreads_eq_specZeroPolicy (st t : Int) :
    adjustThreads st t = specZeroPolicy st t := by
  unfold adjustThreads specZeroPolicy
  by_cases ht : t = 0 <;> by_cases h1 : st = 1 <;> simp [ht, h1]

theorem pairwise_step_pythonRange (s t st : Int) (h : 0 < st) :
    List.Pairwise (fun a b => a + st ≤ b) (pythonRange s t st) := by
  unfold pythonRange
  rw [if_pos h]
  by_cases hst : s < t
  · rw [if_pos hst]
    refine List.Pairwise.map _ ?_ (List.pairwise_lt_range _)
    intro a b hab
    have h1 : (a : Int) + 1 ≤ (b : Int) := by exact_mod_cast hab
    have h2 : ((a : Int) + 1) * st ≤ (b : Int) * st :=
      mul_le_mul_of_nonneg_right h1 (le_of_lt h)
    nlinarith
  · rw [if_neg hst]
    exact List.Pairwise.nil

theorem pairwise_lt_threadCounts (s e st : Int) (h : 0 < st) :
    List.Pairwise (· < ·) (threadCounts s e st) := by
  unfold threadCounts
  refine List.Pairwise.filterMap _ ?_ (pairwise_step_pythonRange s (e + 1) st h)
  intro a a' hstep b hb b' hb'
  rw [Option.mem_def] at hb hb'
  unfold adjustThreads at hb hb'
  split at hb
  · rename_i hc
    injection hb with hb1
    split at hb'
    · rename_i hc'
      injection hb' with hb2
      omega
    · rename_i hc'
      split at hb'
      · exact Option.noConfusion hb'
      · injection hb' with hb2
        omega
  · rename_i hc
    split at hb
    · exact Option.noConfusion hb
    · rename_i h0
      injection hb with hb1
      split at hb'
      · rename_i hc'
        injection hb' with hb2
        omega
      · rename_i hc'
        split at hb'
        · exact Option.noConfusion hb'
        · injection hb' with hb2
          omega

/-! ### Claim theorems -/

/-- C4: `filter_inputs`, applied to any (possibly empty) list of input
items, retains exactly the items whose format tag is in the accepted set
{"bin/galois", "mesh", "nothing"} (spec names "graph-binary", "mesh",
"generated/no-file"), silently drops all others, and preserves the
relative order of retained items: the result equals filtering by
membership in the accepted set and is a sublist of the input. -/
theorem filter_inputs_accepted_formats (inputs : List BmkInput) :
    filter_inputs inputs
        = inputs.filter
            (fun x => decide
              (x.props.format ∈ (["bin/galois", "mesh", "nothing"] : List String)))
      ∧ List.Sublist (filter_inputs inputs) inputs := by
  constructor
  · unfold filter_inputs
    apply List.filter_congr
    intro x _
    unfold finput
    by_cases h1 : x.props.format = "bin/galois" <;>
      by_cases h2 : x.props.format = "mesh" <;>
        by_cases h3 : x.props.format = "nothing" <;>
          simp [h1, h2, h3]
  · exact List.filter_sublist _

/-- C5: `get_default_run_specs` fails if and only if the supplied
configuration is absent (`None`); for every present configuration it
returns an ok list of run specs for any app and input, never an error. -/
theorem get_default_run_specs_error_iff_no_config (app : AppClass) (bmkinput : BmkInput)
    (config : Option Config) :
    ((∃ msg, get_default_run_specs app bmkinput config = Except.error msg) ↔ config = none)
      ∧ ∀ c : Config,
          get_default_run_specs app bmkinput (some c)
            = Except.ok (build_default_specs app bmkinput c) := by
  refine ⟨⟨?_, ?_⟩, fun c => rfl⟩
  · rintro ⟨msg, hmsg⟩
    cases config with
    | none => rfl
    | some c => simp [get_default_run_specs] at hmsg
  · rintro rfl
    exact ⟨_, rfl⟩

/-- C2: the thread sweep of the default builder iterates the closed range
[startThread, endThread] in steps of `step` and applies the zero
edge-case policy (a computed 0 becomes 1 when step ≠ 1 and is skipped
when step = 1); with startThread = endThread = 80 and step = 10 exactly
one run spec is produced, and its thread-count argument token is
"-t=80". -/
theorem threadCounts_closed_range_policy :
    (∀ s e st : Int, 0 < st →
        threadCounts s e st = (closedRangeSweep s e st).filterMap (specZeroPolicy st))
      ∧ ∀ (app : AppClass) (bmkinput : BmkInput) (c : Config),
          app.startThread = 80 → app.endThread = 80 → app.step = 10 →
          build_default_specs app bmkinput c = [mkRunSpec app bmkinput c 80]
            ∧ (mkRunSpec app bmkinput c 80).args.head?
                = some ⟨"-t=80", ArgBinding.plain⟩ := by
  constructor
  · intro s e st hst
    unfold threadCounts
    rw [pythonRange_closed s e st hst,
      show adjustThreads st = specZeroPolicy st from funext (adjustThreads_eq_specZeroPolicy st)]
  · intro app bmkinput c h1 h2 h3
    have htc : threadCounts 80 80 10 = [80] := by decide
    have harg : "-t=" ++ intRepr 80 = "-t=80" := by decide
    constructor
    · unfold build_default_specs
      rw [h1, h2, h3, htc]
      rfl
    · simp only [mkRunSpec, harg, List.cons_append, List.head?_cons]

/-- Witness for C2 at concrete inputs: the closed-range refinement at
(80, 80, 10) and the single produced run spec for a sample descriptor,
input and configuration. -/
theorem threadCounts_closed_range_policy_witness :
    threadCounts 80 80 10 = (closedRangeSweep 80 80 10).filterMap (specZeroPolicy 10)
      ∧ build_default_specs BarnesHut.app sampleGraphInput sampleConfig
          = [mkRunSpec BarnesHut.app sampleGraphInput sampleConfig 80] :=
  ⟨threadCounts_closed_range_policy.1 80 80 10 (by decide),
   (threadCounts_closed_range_policy.2 BarnesHut.app sampleGraphInput sampleConfig
      rfl rfl rfl).1⟩

/-- C7: the default builder returns an ordered sequence of run specs,
exactly one per valid thread-count value (it is the image of the
thread-count list), the thread-count list is strictly ascending, and an
empty thread-count range yields an empty sequence. -/
theorem build_default_specs_ordered (app : AppClass) (bmkinput : BmkInput) (c : Config)
    (h : 0 < app.step) :
    build_default_specs app bmkinput c
        = (threadCounts app.startThread app.endThread app.step).map (mkRunSpec app bmkinput c)
      ∧ List.Pairwise (· < ·) (threadCounts app.startThread app.endThread app.step)
      ∧ (app.endThread < app.startThread → build_default_specs app bmkinput c = []) := by
  refine ⟨rfl, pairwise_lt_threadCounts _ _ _ h, ?_⟩
  intro hlt
  unfold build_default_specs threadCounts pythonRange
  rw [if_pos h, if_neg (by omega : ¬ app.startThread < app.endThread + 1)]
  rfl

/-- Witness for C7 at concrete inputs. -/
theorem build_default_specs_ordered_witness :
    List.Pairwise (· < ·) (threadCounts BFS.app.startThread BFS.app.endThread BFS.app.step) :=
  (build_default_specs_ordered BFS.app sampleGraphInput sampleConfig (by decide)).2.1

/-- The last argument of every run spec built by the loop body is the
`-statFile=` token. -/
theorem mkRunSpec_args_getLast (app : AppClass) (bmkinput : BmkInput) (c : Config) (t : Int) :
    (mkRunSpec app bmkinput c t).args.getLast?
      = some ⟨"-statFile=" ++ path_join (c.get_var "logOutputDirectory")
          (getUniqueStatFile app t
            (if bmkinput.props.format = "nothing" then "gen" else bmkinput.name)),
        ArgBinding.plain⟩ := by
  simp only [mkRunSpec]
  rw [List.getLast?_concat]

/-- C1: for every input item and present configuration, each run spec
produced by the default builder selects the input binding by the input's
format tag: "nothing" (generated/no-file) adds no file argument and the
stat-file name uses the literal display name "gen" regardless of the
input's name; "mesh" adds the input's file path as a plain positional
argument not tagged as a file binding; any other format adds the file
path tagged as a bind-as-input-file argument. -/
theorem default_specs_input_binding (app : AppClass) (bmkinput : BmkInput) (c : Config)
    (s : RunSpec) (hs : s ∈ build_default_specs app bmkinput c) :
    ∃ t : Int,
      (bmkinput.props.format = "nothing" →
        s.args = [⟨"-t=" ++ intRepr t, ArgBinding.plain⟩,
          ⟨"-statFile=" ++ path_join (c.get_var "logOutputDirectory")
              (getUniqueStatFile app t "gen"), ArgBinding.plain⟩])
      ∧ (bmkinput.props.format = "mesh" →
        s.args = [⟨"-t=" ++ intRepr t, ArgBinding.plain⟩,
          ⟨bmkinput.props.file, ArgBinding.plain⟩,
          ⟨"-statFile=" ++ path_join (c.get_var "logOutputDirectory")
              (getUniqueStatFile app t bmkinput.name), ArgBinding.plain⟩])
      ∧ (bmkinput.props.format ≠ "nothing" → bmkinput.props.format ≠ "mesh" →
        s.args = [⟨"-t=" ++ intRepr t, ArgBinding.plain⟩,
          ⟨bmkinput.props.file, ArgBinding.atInputFile⟩,
          ⟨"-statFile=" ++ path_join (c.get_var "logOutputDirectory")
              (getUniqueStatFile app t bmkinput.name), ArgBinding.plain⟩]) := by
  unfold build_default_specs at hs
  obtain ⟨t, ht, rfl⟩ := List.mem_map.mp hs
  refine ⟨t, ?_, ?_, ?_⟩
  · intro hfmt
    simp [mkRunSpec, hfmt]
  · intro hfmt
    simp [mkRunSpec, hfmt]
  · intro h1 h2
    simp [mkRunSpec, h1, h2]

/-- Witness for C1 at a concrete generated/no-file input: the single run
spec produced carries no file argument and its stat-file name is built
from the literal "gen". -/
theorem default_specs_input_binding_witness :
    mkRunSpec BFS.app sampleGenInput sampleConfig 80
        ∈ build_default_specs BFS.app sampleGenInput sampleConfig
      ∧ ∃ t : Int,
        (sampleGenInput.props.format = "nothing" →
          (mkRunSpec BFS.app sampleGenInput sampleConfig 80).args
            = [⟨"-t=" ++ intRepr t, ArgBinding.plain⟩,
              ⟨"-statFile=" ++ path_join (sampleConfig.get_var "logOutputDirectory")
                  (getUniqueStatFile BFS.app t "gen"), ArgBinding.plain⟩])
        ∧ (sampleGenInput.props.format = "mesh" →
          (mkRunSpec BFS.app sampleGenInput sampleConfig 80).args
            = [⟨"-t=" ++ intRepr t, ArgBinding.plain⟩,
              ⟨sampleGenInput.props.file, ArgBinding.plain⟩,
              ⟨"-statFile=" ++ path_join (sampleConfig.get_var "logOutputDirectory")
                  (getUniqueStatFile BFS.app t sampleGenInput.name), ArgBinding.plain⟩])
        ∧ (sampleGenInput.props.format ≠ "nothing" → sampleGenInput.props.format ≠ "mesh" →
          (mkRunSpec BFS.app sampleGenInput sampleConfig 80).args
            = [⟨"-t=" ++ intRepr t, ArgBinding.plain⟩,
              ⟨sampleGenInput.props.file, ArgBinding.atInputFile⟩,
              ⟨"-statFile=" ++ path_join (sampleConfig.get_var "logOutputDirectory")
                  (getUniqueStatFile BFS.app t sampleGenInput.name), ArgBinding.plain⟩]) := by
  have hmem : mkRunSpec BFS.app sampleGenInput sampleConfig 80
      ∈ build_default_specs BFS.app sampleGenInput sampleConfig := by decide
  exact ⟨hmem, default_specs_input_binding BFS.app sampleGenInput sampleConfig _ hmem⟩

/-- C9: the default builder performs no format validation of its own: for
every input whose format tag is neither "nothing" nor "mesh" — including
tags that `filter_inputs` would reject — the input's file path is added
as the second argument tagged as a bind-as-input-file marker, exactly as
for "bin/galois"; restricting inputs to the accepted set is entirely the
caller's responsibility via `filter_inputs`. -/
theorem no_format_validation_in_builder (app : AppClass) (bmkinput : BmkInput) (c : Config)
    (h1 : bmkinput.props.format ≠ "nothing") (h2 : bmkinput.props.format ≠ "mesh")
    (s : RunSpec) (hs : s ∈ build_default_specs app bmkinput c) :
    s.args[1]? = some ⟨bmkinput.props.file, ArgBinding.atInputFile⟩ := by
  unfold build_default_specs at hs
  obtain ⟨t, ht, rfl⟩ := List.mem_map.mp hs
  simp [mkRunSpec, h1, h2]

/-- Witness for C9 at a concrete input whose format tag is outside the
accepted set of `filter_inputs`. -/
theorem no_format_validation_in_builder_witness :
    finput sampleOddInput = false
      ∧ (mkRunSpec GMetis.app sampleOddInput sampleConfig 80).args[1]?
          = some ⟨sampleOddInput.props.file, ArgBinding.atInputFile⟩ := by
  have hmem : mkRunSpec GMetis.app sampleOddInput sampleConfig 80
      ∈ build_default_specs GMetis.app sampleOddInput sampleConfig := by decide
  exact ⟨by decide, no_format_validation_in_builder GMetis.app sampleOddInput sampleConfig
    (by decide) (by decide) _ hmem⟩

/-- C6: within one call of the default builder the stat-file tokens are
pairwise distinct: the last argument of every produced run spec is the
`-statFile=` token, and the list of these last arguments contains no
duplicate (the spec-modelled `getUniqueStatFile` combines benchmark
identity, thread count and display name deterministically). -/
theorem stat_file_names_distinct (app : AppClass) (bmkinput : BmkInput) (c : Config)
    (h : 0 < app.step) :
    (∀ s ∈ build_default_specs app bmkinput c,
        ∃ p, s.args.getLast? = some ⟨"-statFile=" ++ p, ArgBinding.plain⟩)
      ∧ ((build_default_specs app bmkinput c).map (fun s => s.args.getLast?)).Nodup := by
  constructor
  · intro s hs
    obtain ⟨t, ht, rfl⟩ := List.mem_map.mp hs
    exact ⟨_, mkRunSpec_args_getLast app bmkinput c t⟩
  · unfold build_default_specs
    rw [List.map_map]
    have hpw := pairwise_lt_threadCounts app.startThread app.endThread app.step h
    show List.Pairwise _ _
    refine List.Pairwise.map _ ?_ hpw
    intro t1 t2 hlt heq
    rw [Function.comp_apply, Function.comp_apply, mkRunSpec_args_getLast,
      mkRunSpec_args_getLast] at heq
    have htok := congrArg (fun o => (Option.map Arg.token o).getD "") heq
    simp only [Option.map_some, Option.getD_some] at htok
    have := statFileToken_inj app c _ t1 t2 htok
    omega

/-- Witness for C6 at concrete inputs. -/
theorem stat_file_names_distinct_witness :
    ((build_default_specs MCM.app sampleGenInput sampleConfig).map
        (fun s => s.args.getLast?)).Nodup :=
  (stat_file_names_distinct MCM.app sampleGenInput sampleConfig (by decide)).2

/-- `x.set_arg` in a loop appends the tokens as plain arguments, in
order. -/
theorem appendArgs_eq (toks : List String) (s : RunSpec) :
    appendArgs toks s
      = { s with args := s.args ++ toks.map (fun tok => ⟨tok, ArgBinding.plain⟩) } := by
  induction toks generalizing s with
  | nil => simp [appendArgs]
  | cons hd tl ih =>
    unfold appendArgs at ih ⊢
    rw [List.foldl_cons, ih]
    simp [set_arg_plain]

/-- Function form of `appendArgs_eq`. -/
theorem appendArgs_fun (toks : List String) :
    appendArgs toks
      = fun s => { s with args := s.args ++ toks.map (fun tok => ⟨tok, ArgBinding.plain⟩) } :=
  funext (appendArgs_eq toks)

/-- C3: each overriding algorithm appends exactly its fixed
algorithm-specific tokens, in order, to every run spec produced by the
default builder (BarnesHut: -n=50000, -steps=1, -seed=0; GMetis: 256;
MCM: -inputType=generated, -n=1000000, -numEdges=100000000,
-numGroups=10000, -seed=0; SSSP: -delta=8), and every other algorithm
(BCOuter, BCInner, BFS, DMR, IndependentSet) returns the default specs
unchanged. -/
theorem get_run_spec_appends_fixed_args (bmkinput : BmkInput) (c : Config) :
    BarnesHut.get_run_spec bmkinput (some c)
        = Except.ok ((build_default_specs BarnesHut.app bmkinput c).map (fun s =>
            { s with args := s.args ++ [⟨"-n=50000", ArgBinding.plain⟩,
                ⟨"-steps=1", ArgBinding.plain⟩, ⟨"-seed=0", ArgBinding.plain⟩] }))
      ∧ GMetis.get_run_spec bmkinput (some c)
          = Except.ok ((build_default_specs GMetis.app bmkinput c).map (fun s =>
              { s with args := s.args ++ [⟨"256", ArgBinding.plain⟩] }))
      ∧ MCM.get_run_spec bmkinput (some c)
          = Except.ok ((build_default_specs MCM.app bmkinput c).map (fun s =>
              { s with args := s.args ++ [⟨"-inputType=generated", ArgBinding.plain⟩,
                  ⟨"-n=1000000", ArgBinding.plain⟩, ⟨"-numEdges=100000000", ArgBinding.plain⟩,
                  ⟨"-numGroups=10000", ArgBinding.plain⟩, ⟨"-seed=0", ArgBinding.plain⟩] }))
      ∧ SSSP.get_run_spec bmkinput (some c)
          = Except.ok ((build_default_specs SSSP.app bmkinput c).map (fun s =>
              { s with args := s.args ++ [⟨"-delta=8", ArgBinding.plain⟩] }))
      ∧ BCOuter.get_run_spec bmkinput (some c)
          = Except.ok (build_default_specs BCOuter.app bmkinput c)
      ∧ BCInner.get_run_spec bmkinput (some c)
          = Except.ok (build_default_specs BCInner.app bmkinput c)
      ∧ BFS.get_run_spec bmkinput (some c)
          = Except.ok (build_default_specs BFS.app bmkinput c)
      ∧ DMR.get_run_spec bmkinput (some c)
          = Except.ok (build_default_specs DMR.app bmkinput c)
      ∧ IndependentSet.get_run_spec bmkinput (some c)
          = Except.ok (build_default_specs IndependentSet.app bmkinput c) := by
  refine ⟨?_, ?_, ?_, ?_, rfl, rfl, rfl, rfl, rfl⟩ <;>
    simp [BarnesHut.get_run_spec, GMetis.get_run_spec, MCM.get_run_spec, SSSP.get_run_spec,
      get_default_run_specs, Except.map, appendArgs_fun]

/-- C8: the run-spec builders are deterministic pure functions of the
triple (descriptor, input, config): two calls with equal arguments return
equal results; the embedding is effect-free by construction, so no call
reads or mutates state shared between invocations. -/
theorem run_spec_builders_deterministic (a1 a2 : AppClass) (b1 b2 : BmkInput)
    (c1 c2 : Option Config) (ha : a1 = a2) (hb : b1 = b2) (hc : c1 = c2) :
    get_default_run_specs a1 b1 c1 = get_default_run_specs a2 b2 c2
      ∧ SharedMemApp.get_run_spec a1 b1 c1 = SharedMemApp.get_run_spec a2 b2 c2
      ∧ MCM.get_run_spec b1 c1 = MCM.get_run_spec b2 c2 := by
  subst ha; subst hb; subst hc
  exact ⟨rfl, rfl, rfl⟩

/-- Witness for C8 at concrete inputs. -/
theorem run_spec_builders_deterministic_witness :
    get_default_run_specs MCM.app sampleGenInput (some sampleConfig)
        = get_default_run_specs MCM.app sampleGenInput (some sampleConfig)
      ∧ SharedMemApp.get_run_spec MCM.app sampleGenInput (some sampleConfig)
          = SharedMemApp.get_run_spec MCM.app sampleGenInput (some sampleConfig)
      ∧ MCM.get_run_spec sampleGenInput (some sampleConfig)
          = MCM.get_run_spec sampleGenInput (some sampleConfig) :=
  run_spec_builders_deterministic MCM.app MCM.app sampleGenInput sampleGenInput
    (some sampleConfig) (some sampleConfig) rfl rfl rfl

/-- C10: the exposed registry `BINARIES` contains exactly one descriptor,
the MCM (bipartite maximum-cardinality matching) one, although nine
descriptor classes covering eight algorithms are defined in the module
(betweenness centrality has an outer and an inner variant); no other
defined descriptor is registered. -/
theorem binaries_registry_only_mcm :
    BINARIES = [MCM.app]
      ∧ BINARIES.length = 1
      ∧ definedDescriptors.map AppClass.benchmark
          = ["barneshut", "bc-outer", "bc-inner", "bfs", "dmr", "gmetis", "independentset",
             "mcm", "sssp"]
      ∧ (definedDescriptors.map AppClass.benchmark).Nodup
      ∧ definedDescriptors.filter (fun a => decide (a ∈ BINARIES)) = [MCM.app] :=
  ⟨rfl, rfl, by decide, by decide, by decide⟩
